import Mathlib

set_option autoImplicit false

/-- Shallow embedding of the Python runtime values that flow through
`convoviz/models/_message.py`: the JSON-decoded message inputs are built from
`None`, booleans, integers, strings, lists and string-keyed dictionaries. -/
inductive PyVal where
  | none
  | bool (b : Bool)
  | int (n : Int)
  | str (s : String)
  | list (xs : List PyVal)
  | dict (kvs : List (String × PyVal))

/-- Test whether a value is a Python string (`isinstance(v, str)`). -/
def PyVal.isStr : PyVal → Bool
  | .str _ => true
  | _ => false

/-- Test whether a value is a Python dict (`isinstance(v, dict)`). -/
def PyVal.isDict : PyVal → Bool
  | .dict _ => true
  | _ => false

/-- Rendering of Python `type(v)` as it appears interpolated in the
`validate_parts` error message, for example `<class \x27int\x27>`. -/
def PyVal.typeName : PyVal → String
  | .none => "<class \x27NoneType\x27>"
  | .bool _ => "<class \x27bool\x27>"
  | .int _ => "<class \x27int\x27>"
  | .str _ => "<class \x27str\x27>"
  | .list _ => "<class \x27list\x27>"
  | .dict _ => "<class \x27dict\x27>"

/-- Hexadecimal digit used by the `\uXXXX` escapes of `json.dumps`. -/
def hexDigit (n : Nat) : Char :=
  if n < 10 then Char.ofNat (48 + n) else Char.ofNat (87 + n)

/-- Four-digit lowercase hexadecimal rendering of a code point. -/
def hex4 (n : Nat) : String :=
  String.mk [hexDigit (n / 4096 % 16), hexDigit (n / 256 % 16),
             hexDigit (n / 16 % 16), hexDigit (n % 16)]

/-- Escaping of one character by `json.dumps` with its default
`ensure_ascii=True`: quote, backslash and the common control characters get
two-character escapes, other control and all non-ASCII characters become
`\uXXXX`, and printable ASCII stands for itself. -/
def jsonEscapeChar (c : Char) : String :=
  if c = '"' then "\\\""
  else if c = '\\' then "\\\\"
  else if c = '\n' then "\\n"
  else if c = '\t' then "\\t"
  else if c = '\r' then "\\r"
  else if c.toNat < 32 ∨ c.toNat > 126 then "\\u" ++ hex4 c.toNat
  else String.singleton c

/-- Escaping of a whole string by `json.dumps`. -/
def jsonEscape (s : String) : String :=
  String.join (s.data.map jsonEscapeChar)

mutual

/-- Model of `json.dumps` with its default arguments (separators `", "` and
`": "`, `ensure_ascii=True`), as called by `ImageAssetPointer.validate` to
serialize a metadata dictionary; key order is preserved. -/
def jsonDumps : PyVal → String
  | .none => "null"
  | .bool true => "true"
  | .bool false => "false"
  | .int n => toString n
  | .str s => "\"" ++ jsonEscape s ++ "\""
  | .list xs => "[" ++ jsonDumpsList xs ++ "]"
  | .dict kvs => "\x7b" ++ jsonDumpsDict kvs ++ "\x7d"

/-- Comma-separated `json.dumps` rendering of list elements. -/
def jsonDumpsList : List PyVal → String
  | [] => ""
  | [x] => jsonDumps x
  | x :: y :: rest => jsonDumps x ++ ", " ++ jsonDumpsList (y :: rest)

/-- Comma-separated `json.dumps` rendering of dictionary entries. -/
def jsonDumpsDict : List (String × PyVal) → String
  | [] => ""
  | [(k, v)] => "\"" ++ jsonEscape k ++ "\": " ++ jsonDumps v
  | (k, v) :: p :: rest =>
      "\"" ++ jsonEscape k ++ "\": " ++ jsonDumps v ++ ", " ++ jsonDumpsDict (p :: rest)

end

/-- Python `dict.get(k)` on a string-keyed dictionary: the first binding of the
key, or nothing when the key is absent. -/
def pyGet (kvs : List (String × PyVal)) (k : String) : Option PyVal :=
  match kvs.find? (fun p => p.1 == k) with
  | Option.none => Option.none
  | some p => some p.2

/-- The typed record built for an embedded image reference (class
`ImageAssetPointer` in `_message.py`).  The `fovea` and `metadata` fields are
annotated `Any` in the source, so they hold arbitrary runtime values. -/
structure ImageAssetPointer where
  content_type : String
  asset_pointer : String
  size_bytes : Int
  width : Int
  height : Int
  fovea : PyVal
  metadata : PyVal

/-- The metadata normalization performed by the classmethod
`ImageAssetPointer.validate`: a dictionary is serialized with `json.dumps`;
an absent or `None` value (both make `values.get` return `None`) becomes the
literal two-character string `\x7b\x7d`; every other value passes through. -/
def ImageAssetPointer.normalizeMetadata : Option PyVal → PyVal
  | some (.dict d) => .str (jsonDumps (.dict d))
  | some .none => .str "\x7b\x7d"
  | Option.none => .str "\x7b\x7d"
  | some v => v

/-- The fovea normalization performed by `ImageAssetPointer.validate`: an
absent or `None` value becomes the empty string, everything else passes
through. -/
def ImageAssetPointer.normalizeFovea : Option PyVal → PyVal
  | some .none => .str ""
  | Option.none => .str ""
  | some v => v

/-- The errors of a validation result, empty on success; pydantic aggregates
the per-field errors of a model into one ValidationError. -/
def errsOf {α : Type} : Except (List String) α → List String
  | .ok _ => []
  | .error es => es

/-- Pydantic check of a required field declared `str`. -/
def requireStr (kvs : List (String × PyVal)) (k : String) : Except (List String) String :=
  match pyGet kvs k with
  | some (.str s) => .ok s
  | some _ => .error [k ++ ": str type expected"]
  | Option.none => .error [k ++ ": field required"]

/-- Pydantic check of a required field declared `int`. -/
def requireInt (kvs : List (String × PyVal)) (k : String) : Except (List String) Int :=
  match pyGet kvs k with
  | some (.int n) => .ok n
  | some _ => .error [k ++ ": integer type expected"]
  | Option.none => .error [k ++ ": field required"]

/-- Construction of an `ImageAssetPointer` from a raw dictionary: the
`validate` classmethod first normalizes `metadata` and `fovea` in the value
dictionary, then the declared fields are checked (the two `Any` fields accept
anything). -/
def ImageAssetPointer.construct (kvs : List (String × PyVal)) :
    Except (List String) ImageAssetPointer :=
  match requireStr kvs "content_type", requireStr kvs "asset_pointer",
        requireInt kvs "size_bytes", requireInt kvs "width", requireInt kvs "height" with
  | .ok ct, .ok ap, .ok sb, .ok w, .ok h =>
      .ok { content_type := ct, asset_pointer := ap, size_bytes := sb, width := w,
            height := h,
            fovea := ImageAssetPointer.normalizeFovea (pyGet kvs "fovea"),
            metadata := ImageAssetPointer.normalizeMetadata (pyGet kvs "metadata") }
  | r1, r2, r3, r4, r5 =>
      .error (errsOf r1 ++ errsOf r2 ++ errsOf r3 ++ errsOf r4 ++ errsOf r5)

/-- Escaping of one character in the Python `repr` of a string. -/
def pyReprEscapeChar (c : Char) : String :=
  if c = '\\' then "\\\\"
  else if c.toNat = 39 then "\\\x27"
  else if c = '\n' then "\\n"
  else if c = '\t' then "\\t"
  else if c = '\r' then "\\r"
  else String.singleton c

/-- Escaping of a whole string in the Python `repr` of a string. -/
def pyReprEscape (s : String) : String :=
  String.join (s.data.map pyReprEscapeChar)

mutual

/-- Close model of Python `repr` on the embedded values, used by the string
form of a pydantic model (which renders each field as `name=repr(value)`). -/
def pyRepr : PyVal → String
  | .none => "None"
  | .bool true => "True"
  | .bool false => "False"
  | .int n => toString n
  | .str s => "\x27" ++ pyReprEscape s ++ "\x27"
  | .list xs => "[" ++ pyReprList xs ++ "]"
  | .dict kvs => "\x7b" ++ pyReprDict kvs ++ "\x7d"

/-- Comma-separated `repr` rendering of list elements. -/
def pyReprList : List PyVal → String
  | [] => ""
  | [x] => pyRepr x
  | x :: y :: rest => pyRepr x ++ ", " ++ pyReprList (y :: rest)

/-- Comma-separated `repr` rendering of dictionary entries. -/
def pyReprDict : List (String × PyVal) → String
  | [] => ""
  | [(k, v)] => "\x27" ++ pyReprEscape k ++ "\x27: " ++ pyRepr v
  | (k, v) :: p :: rest =>
      "\x27" ++ pyReprEscape k ++ "\x27: " ++ pyRepr v ++ ", " ++ pyReprDict (p :: rest)

end

/-- An element of `MessageContent.parts` after validation: either a plain
string or a validated `ImageAssetPointer` (the source declares the field as
`List[Union[str, ImageAssetPointer]]`). -/
inductive ContentPart where
  | str (s : String)
  | image (p : ImageAssetPointer)

/-- Python `str()` of an `ImageAssetPointer`: pydantic renders the fields in
declaration order as `name=repr(value)` separated by spaces; the spec leaves
this string form implementation-defined (a placeholder token, not binary
image content). -/
def ImageAssetPointer.strForm (p : ImageAssetPointer) : String :=
  "content_type=" ++ pyRepr (.str p.content_type) ++
  " asset_pointer=" ++ pyRepr (.str p.asset_pointer) ++
  " size_bytes=" ++ toString p.size_bytes ++
  " width=" ++ toString p.width ++
  " height=" ++ toString p.height ++
  " fovea=" ++ pyRepr p.fovea ++
  " metadata=" ++ pyRepr p.metadata

/-- Python `str()` of a parts element, as taken by `Message.text` on
`self.content.parts[0]`: a string is itself, an image pointer renders its
fields. -/
def ContentPart.strForm : ContentPart → String
  | .str s => s
  | .image p => ImageAssetPointer.strForm p

/-- Embedding of the validator `MessageContent.validate_parts` applied to one
raw element: a dictionary is coerced to a (recursively validated)
`ImageAssetPointer`, a string is kept as-is, and anything else raises
`ValueError(f"Invalid type for parts: \x7btype(v)\x7d")`. -/
def MessageContent.validate_part (v : PyVal) : Except (List String) ContentPart :=
  match v with
  | .dict kvs => Except.map ContentPart.image (ImageAssetPointer.construct kvs)
  | .str s => .ok (ContentPart.str s)
  | other => .error ["Invalid type for parts: " ++ other.typeName]

/-- Element-wise validation of a raw parts list; pydantic validates every
element and aggregates all element errors into the one ValidationError. -/
def MessageContent.collectParts (xs : List PyVal) : Except (List String) (List ContentPart) :=
  match xs with
  | [] => .ok []
  | v :: rest =>
      match MessageContent.validate_part v, MessageContent.collectParts rest with
      | .ok p, .ok ps => .ok (p :: ps)
      | r, rs => .error (errsOf r ++ errsOf rs)

/-- Validation of the raw `parts` field: an absent key takes the declared
default `[]`; a list is validated element-wise; an explicit `None` or any
non-list value is rejected by the declared `List[...]` type. -/
def MessageContent.validateParts (raw : Option PyVal) : Except (List String) (List ContentPart) :=
  match raw with
  | Option.none => .ok []
  | some (.list xs) => MessageContent.collectParts xs
  | some .none => .error ["parts: none is not an allowed value"]
  | some _ => .error ["parts: value is not a valid list"]

/-- Pydantic check of an optional field declared `str | None = None`: absent
or `None` is stored as absent, a string is kept, anything else is rejected. -/
def optionalStr (kvs : List (String × PyVal)) (k : String) :
    Except (List String) (Option String) :=
  match pyGet kvs k with
  | Option.none => .ok Option.none
  | some .none => .ok Option.none
  | some (.str s) => .ok (some s)
  | some _ => .error [k ++ ": str type expected"]

/-- The typed `content` record of a message (class `MessageContent`).  The
declared type of `parts` is a plain list defaulting to `[]`, but the `text`
accessor in the source guards on `parts is not None`, so the stored field is
modelled as optional; validation always produces `some`. -/
structure MessageContent where
  content_type : String
  parts : Option (List ContentPart)
  text : Option String
  result : Option String

/-- Construction of a `MessageContent` from a raw value: the four declared
fields are validated and all field errors are aggregated. -/
def MessageContent.validate (v : PyVal) : Except (List String) MessageContent :=
  match v with
  | .dict kvs =>
      match requireStr kvs "content_type", MessageContent.validateParts (pyGet kvs "parts"),
            optionalStr kvs "text", optionalStr kvs "result" with
      | .ok ct, .ok ps, .ok t, .ok r =>
          .ok { content_type := ct, parts := some ps, text := t, result := r }
      | r1, r2, r3, r4 => .error (errsOf r1 ++ errsOf r2 ++ errsOf r3 ++ errsOf r4)
  | other => .error ["content: value is not a valid dict: " ++ other.typeName]

/-- The enumerated author roles: `AuthorRole = Literal["user", "assistant",
"system", "tool"]` in the source. -/
inductive AuthorRole where
  | user
  | assistant
  | system
  | tool

deriving instance DecidableEq for AuthorRole

/-- The string key a role stands for, used when indexing the configured
author headers. -/
def AuthorRole.key : AuthorRole → String
  | .user => "user"
  | .assistant => "assistant"
  | .system => "system"
  | .tool => "tool"

/-- Pydantic check of a raw value against the `Literal["user", "assistant",
"system", "tool"]` annotation: only those four exact strings are accepted. -/
def AuthorRole.validate (v : PyVal) : Except (List String) AuthorRole :=
  match v with
  | .str s =>
      if s = "user" then .ok .user
      else if s = "assistant" then .ok .assistant
      else if s = "system" then .ok .system
      else if s = "tool" then .ok .tool
      else .error ["role: unexpected value; permitted: user, assistant, system, tool"]
  | _ => .error ["role: unexpected value; permitted: user, assistant, system, tool"]

/-- The typed `author` record of a message (class `MessageAuthor`). -/
structure MessageAuthor where
  role : AuthorRole
  name : Option String
  metadata : List (String × PyVal)

/-- Pydantic check of a required field declared `dict[str, Any]`. -/
def requireDict (kvs : List (String × PyVal)) (k : String) :
    Except (List String) (List (String × PyVal)) :=
  match pyGet kvs k with
  | some (.dict d) => .ok d
  | some _ => .error [k ++ ": value is not a valid dict"]
  | Option.none => .error [k ++ ": field required"]

/-- Validation of the required `role` field of an author dictionary. -/
def MessageAuthor.validateRole (kvs : List (String × PyVal)) :
    Except (List String) AuthorRole :=
  match pyGet kvs "role" with
  | some rv => AuthorRole.validate rv
  | Option.none => .error ["role: field required"]

/-- Construction of a `MessageAuthor` from a raw value, aggregating the field
errors. -/
def MessageAuthor.validate (v : PyVal) : Except (List String) MessageAuthor :=
  match v with
  | .dict kvs =>
      match MessageAuthor.validateRole kvs, optionalStr kvs "name",
            requireDict kvs "metadata" with
      | .ok r, .ok n, .ok md => .ok { role := r, name := n, metadata := md }
      | r1, r2, r3 => .error (errsOf r1 ++ errsOf r2 ++ errsOf r3)
  | other => .error ["author: value is not a valid dict: " ++ other.typeName]

/-- The typed `metadata` record of a message (class `MessageMetadata`); all
fields optional. -/
structure MessageMetadata where
  model_slug : Option String := Option.none
  invoked_plugin : Option (List (String × PyVal)) := Option.none
  is_user_system_message : Option Bool := Option.none
  user_context_message_data : Option (List (String × PyVal)) := Option.none

/-- The validated message record (class `Message`).  The two datetime fields
are modelled opaquely as optional integers: no claim exercises them. -/
structure Message where
  id : String
  author : MessageAuthor
  create_time : Option Int
  update_time : Option Int
  content : MessageContent
  status : String
  end_turn : Option Bool
  weight : Rat
  metadata : MessageMetadata
  recipient : String

/-- Raw construction input for `Message`.  The claims under verification only
exercise the validation of the `author` and `content` sub-objects, so those
two arrive as raw values; the remaining fields carry already-validated data
(their pydantic checks are plain type or datetime checks not at issue in any
claim). -/
structure RawMessage where
  id : String
  author : PyVal
  create_time : Option Int := Option.none
  update_time : Option Int := Option.none
  content : PyVal
  status : String
  end_turn : Option Bool := Option.none
  weight : Rat := 1
  metadata : MessageMetadata := {}
  recipient : String := "all"

/-- Construction of a `Message`: the author and content sub-objects are
validated recursively and their errors aggregated; any error fails the whole
construction. -/
def Message.construct (r : RawMessage) : Except (List String) Message :=
  match MessageAuthor.validate r.author, MessageContent.validate r.content with
  | .ok a, .ok c =>
      .ok { id := r.id, author := a, create_time := r.create_time,
            update_time := r.update_time, content := c, status := r.status,
            end_turn := r.end_turn, weight := r.weight, metadata := r.metadata,
            recipient := r.recipient }
  | ra, rc => .error (errsOf ra ++ errsOf rc)

/-- Modelled from the spec: `code_block` from `convoviz.utils` is imported by
the source but its definition is not under `src/`.  The spec requires a
deterministic fenced code block whose fence can be stripped to recover the
original string; the fence used here is three backticks and a newline on each
side. -/
def code_block (t : String) : String :=
  "```\n" ++ t ++ "\n```"

/-- Stripping the fence produced by `code_block`: drop the four leading and
four trailing fence characters. -/
def code_block_strip (s : String) : String :=
  (s.drop 4).dropRight 4

/-- Embedding of the property `Message.text`: when `parts` is not `None` the
source returns `str(self.content.parts[0])` (raising `IndexError` when the
list is empty); otherwise a non-`None` `text` is returned as a fenced code
block; otherwise a non-`None` `result` is returned verbatim; otherwise it
raises `ValueError(f"No valid content found in message: \x7bself.id\x7d")`. -/
def Message.text (m : Message) : Except String String :=
  match m.content.parts with
  | some ps =>
      match ps with
      | [] => .error "list index out of range"
      | p :: _ => .ok (ContentPart.strForm p)
  | Option.none =>
      match m.content.text with
      | some t => .ok (code_block t)
      | Option.none =>
          match m.content.result with
          | some r => .ok r
          | Option.none => .error ("No valid content found in message: " ++ m.id)

/-- A value stored in the message-configs dictionary: the nested role-to-header
mapping expected under the key `author_headers`, or a bare string (which a
caller may put at any key, the dictionary being untyped at runtime). -/
inductive ConfigValue where
  | headers (h : List (String × String))
  | str (s : String)

/-- The shared message-configs object, a Python dictionary from string keys to
config values.  The source keeps it in the class attribute
`Message.__configs`; it is modelled by explicit state passing. -/
abbrev MessageConfigs := List (String × ConfigValue)

/-- Python assignment `d[k] = v`: an existing key is overwritten in place, a
new key is appended. -/
def dictSet (d : MessageConfigs) (k : String) (v : ConfigValue) : MessageConfigs :=
  if d.any (fun p => p.1 == k) then
    d.map (fun p => if p.1 == k then (k, v) else p)
  else d ++ [(k, v)]

/-- Python `d.update(u)`: every binding of `u` is assigned into `d` in
order. -/
def dictUpdate (d : MessageConfigs) (u : MessageConfigs) : MessageConfigs :=
  u.foldl (fun acc kv => dictSet acc kv.1 kv.2) d

/-- Embedding of the classmethod `Message.update_configs`, which merges the
given mapping into the shared class-level configs with `dict.update`; the
shared mutable class attribute becomes an explicit state argument. -/
def Message.update_configs (current : MessageConfigs) (configs : MessageConfigs) :
    MessageConfigs :=
  dictUpdate current configs

/-- Python `d[k]` lookup on the configs dictionary. -/
def configLookup (d : MessageConfigs) (k : String) : Option ConfigValue :=
  match d.find? (fun p => p.1 == k) with
  | Option.none => Option.none
  | some p => some p.2

/-- Python `h[k]` lookup on the nested role-to-header dictionary. -/
def headersLookup (h : List (String × String)) (k : String) : Option String :=
  match h.find? (fun p => p.1 == k) with
  | Option.none => Option.none
  | some p => some p.2

/-- Embedding of the property `Message.header`: the source evaluates
`self.__configs["author_headers"][self.author.role]`, reading the shared
configs at call time; a missing key raises `KeyError` and a non-dictionary
value under `author_headers` raises `TypeError`. -/
def Message.header (cfg : MessageConfigs) (m : Message) : Except String String :=
  match configLookup cfg "author_headers" with
  | some (ConfigValue.headers h) =>
      match headersLookup h m.author.role.key with
      | some s => .ok s
      | Option.none => .error ("KeyError: " ++ m.author.role.key)
  | some (ConfigValue.str _) => .error "TypeError: string indices must be integers"
  | Option.none => .error "KeyError: author_headers"

/-- Modelled from the spec: `DEFAULT_MESSAGE_CONFIGS` from `convoviz.utils` is
imported by the source but its definition is not under `src/`.  The source
reads `configs["author_headers"][role]`, so the default carries an
`author_headers` entry; the spec requires that entry to be exhaustive over the
four roles but fixes no default header strings, so placeholders are used. -/
def DEFAULT_MESSAGE_CONFIGS : MessageConfigs :=
  [("author_headers", ConfigValue.headers
      [("user", "# Me"), ("assistant", "# ChatGPT"),
       ("system", "### System"), ("tool", "### Tool")])]

/-- A raw user message whose content carries only a `content_type`, so the
validated `parts` takes its declared default `[]`. -/
def rawEmptyParts : RawMessage :=
  { id := "msg-empty",
    author := .dict [("role", .str "user"), ("metadata", .dict [])],
    content := .dict [("content_type", .str "text"), ("text", .str "hello")],
    status := "finished_successfully" }

/-- The message `rawEmptyParts` constructs to: its parts list is present but
empty while its text field is populated. -/
def msgEmptyParts : Message :=
  { id := "msg-empty",
    author := { role := .user, name := Option.none, metadata := [] },
    create_time := Option.none, update_time := Option.none,
    content := { content_type := "text", parts := some [], text := some "hello",
                 result := Option.none },
    status := "finished_successfully", end_turn := Option.none, weight := 1,
    metadata := {}, recipient := "all" }

/-- A raw image dictionary whose metadata is a mapping and whose fovea is
null. -/
def rawImgDictMeta : List (String × PyVal) :=
  [("content_type", .str "image_asset_pointer"), ("asset_pointer", .str "ptr-1"),
   ("size_bytes", .int 100), ("width", .int 10), ("height", .int 10),
   ("fovea", .none), ("metadata", .dict [("a", .int 1)])]

/-- The record `rawImgDictMeta` constructs to. -/
def imgDictMeta : ImageAssetPointer :=
  { content_type := "image_asset_pointer", asset_pointer := "ptr-1",
    size_bytes := 100, width := 10, height := 10,
    fovea := .str "", metadata := .str "\x7b\"a\": 1\x7d" }

/-- A raw image dictionary whose metadata and fovea carry non-mapping,
non-null, non-string values. -/
def rawImgOtherMeta : List (String × PyVal) :=
  [("content_type", .str "image_asset_pointer"), ("asset_pointer", .str "ptr-2"),
   ("size_bytes", .int 100), ("width", .int 10), ("height", .int 10),
   ("fovea", .int 5), ("metadata", .int 42)]

/-- The record `rawImgOtherMeta` constructs to: both pass-through values are
kept as integers. -/
def imgOtherMeta : ImageAssetPointer :=
  { content_type := "image_asset_pointer", asset_pointer := "ptr-2",
    size_bytes := 100, width := 10, height := 10,
    fovea := .int 5, metadata := .int 42 }

/-- A message record with the given id and content, user role, and neutral
remaining fields, used to build concrete instances. -/
def mkMsg (i : String) (c : MessageContent) : Message :=
  { id := i, author := { role := .user, name := Option.none, metadata := [] },
    create_time := Option.none, update_time := Option.none, content := c,
    status := "finished_successfully", end_turn := Option.none, weight := 1,
    metadata := {}, recipient := "all" }

/-- A message whose content has a null parts and the text print(1). -/
def msgCodeText : Message :=
  mkMsg "msg-code"
    { content_type := "code", parts := Option.none, text := some "print(1)",
      result := Option.none }

/-- A message whose content has null parts and text and the result 42. -/
def msgResult42 : Message :=
  mkMsg "msg-result"
    { content_type := "execution_output", parts := Option.none, text := Option.none,
      result := some "42" }

/-- A message whose content parts list is the single string hello. -/
def msgHello : Message :=
  mkMsg "msg-hello"
    { content_type := "text", parts := some [ContentPart.str "hello"],
      text := Option.none, result := Option.none }

/-- A message whose content has all three representations null. -/
def msgNoContent : Message :=
  mkMsg "msg-31"
    { content_type := "text", parts := Option.none, text := Option.none,
      result := Option.none }

/-- A message sharing the first part of `msgHello` but with a different tail,
id and other content fields. -/
def msgHelloTail : Message :=
  mkMsg "msg-hello-tail"
    { content_type := "multimodal_text",
      parts := some [ContentPart.str "hello", ContentPart.str "ignored"],
      text := some "other", result := some "other2" }

/-- A message with an empty parts list and populated text and result fields. -/
def msgEmptyWithBoth : Message :=
  mkMsg "msg-c10"
    { content_type := "text", parts := some [], text := some "t", result := some "r" }

/-- A raw message whose content parts contain an integer element. -/
def rawBadParts : RawMessage :=
  { id := "msg-bad-part",
    author := .dict [("role", .str "user"), ("metadata", .dict [])],
    content := .dict [("content_type", .str "text"),
                      ("parts", .list [.str "ok", .int 3])],
    status := "finished_successfully" }

/-- A raw message whose author role is the unrecognized string admin. -/
def rawBadRole : RawMessage :=
  { id := "msg-bad-role",
    author := .dict [("role", .str "admin"), ("metadata", .dict [])],
    content := .dict [("content_type", .str "text")],
    status := "finished_successfully" }

theorem imageConstruct_ok_fields {kvs : List (String × PyVal)} {p : ImageAssetPointer}
    (h : ImageAssetPointer.construct kvs = Except.ok p) :
    p.fovea = ImageAssetPointer.normalizeFovea (pyGet kvs "fovea") ∧
    p.metadata = ImageAssetPointer.normalizeMetadata (pyGet kvs "metadata") := by
  unfold ImageAssetPointer.construct at h
  split at h
  · injection h with h2
    subst h2
    exact ⟨rfl, rfl⟩
  · exact Except.noConfusion h

theorem normalizeMetadata_other {v : PyVal} (hd : ∀ d, v ≠ PyVal.dict d)
    (hn : v ≠ PyVal.none) :
    ImageAssetPointer.normalizeMetadata (some v) = v := by
  cases v with
  | none => exact absurd rfl hn
  | dict d => exact absurd rfl (hd d)
  | bool b => rfl
  | int n => rfl
  | str s => rfl
  | list xs => rfl

theorem normalizeFovea_other {v : PyVal} (hn : v ≠ PyVal.none) :
    ImageAssetPointer.normalizeFovea (some v) = v := by
  cases v with
  | none => exact absurd rfl hn
  | bool b => rfl
  | int n => rfl
  | str s => rfl
  | list xs => rfl
  | dict d => rfl

/-- Claim C3: ImageAssetPointer construction normalizes its metadata and fovea
fields: a raw metadata mapping is stored as its JSON-encoded string with key
order preserved (for the mapping with key a bound to 1, the literal rendering
with a quote-a-quote-colon-space-one body), an absent or null raw metadata is
stored as the literal two-character brace string, any other raw metadata value
passes through unchanged, a null raw fovea is stored as the empty string, and
any other raw fovea value passes through unchanged. -/
theorem image_asset_pointer_normalization :
    (∀ (kvs d : List (String × PyVal)) (p : ImageAssetPointer),
        ImageAssetPointer.construct kvs = .ok p →
        pyGet kvs "metadata" = some (.dict d) →
        p.metadata = .str (jsonDumps (.dict d))) ∧
    jsonDumps (.dict [("a", PyVal.int 1)]) = "\x7b\"a\": 1\x7d" ∧
    (∀ (kvs : List (String × PyVal)) (p : ImageAssetPointer),
        ImageAssetPointer.construct kvs = .ok p →
        (pyGet kvs "metadata" = Option.none ∨ pyGet kvs "metadata" = some PyVal.none) →
        p.metadata = .str "\x7b\x7d") ∧
    (∀ (kvs : List (String × PyVal)) (p : ImageAssetPointer) (v : PyVal),
        ImageAssetPointer.construct kvs = .ok p → pyGet kvs "metadata" = some v →
        (∀ d, v ≠ PyVal.dict d) → v ≠ PyVal.none → p.metadata = v) ∧
    (∀ (kvs : List (String × PyVal)) (p : ImageAssetPointer),
        ImageAssetPointer.construct kvs = .ok p → pyGet kvs "fovea" = some PyVal.none →
        p.fovea = .str "") ∧
    (∀ (kvs : List (String × PyVal)) (p : ImageAssetPointer) (v : PyVal),
        ImageAssetPointer.construct kvs = .ok p → pyGet kvs "fovea" = some v →
        v ≠ PyVal.none → p.fovea = v) := by
  refine ⟨?_, rfl, ?_, ?_, ?_, ?_⟩
  · intro kvs d p h hm
    rw [(imageConstruct_ok_fields h).2, hm]
    rfl
  · intro kvs p h hm
    rcases hm with hm | hm <;> rw [(imageConstruct_ok_fields h).2, hm] <;> rfl
  · intro kvs p v h hm hd hn
    rw [(imageConstruct_ok_fields h).2, hm, normalizeMetadata_other hd hn]
  · intro kvs p h hf
    rw [(imageConstruct_ok_fields h).1, hf]
    rfl
  · intro kvs p v h hf hn
    rw [(imageConstruct_ok_fields h).1, hf, normalizeFovea_other hn]

theorem image_asset_pointer_normalization_witness :
    imgDictMeta.metadata = .str (jsonDumps (.dict [("a", PyVal.int 1)])) ∧
    imgDictMeta.fovea = .str "" ∧
    imgOtherMeta.metadata = PyVal.int 42 ∧
    imgOtherMeta.fovea = PyVal.int 5 := by
  refine ⟨image_asset_pointer_normalization.1 rawImgDictMeta [("a", .int 1)] imgDictMeta rfl rfl,
          image_asset_pointer_normalization.2.2.2.2.1 rawImgDictMeta imgDictMeta rfl rfl,
          image_asset_pointer_normalization.2.2.2.1 rawImgOtherMeta imgOtherMeta (PyVal.int 42)
            rfl rfl (fun d h => PyVal.noConfusion h) (fun h => PyVal.noConfusion h),
          image_asset_pointer_normalization.2.2.2.2.2 rawImgOtherMeta imgOtherMeta (PyVal.int 5)
            rfl rfl (fun h => PyVal.noConfusion h)⟩

theorem normalizeMetadata_not_dict (o : Option PyVal) :
    (ImageAssetPointer.normalizeMetadata o).isDict = false := by
  match o with
  | Option.none => rfl
  | some .none => rfl
  | some (.bool b) => rfl
  | some (.int n) => rfl
  | some (.str s) => rfl
  | some (.list xs) => rfl
  | some (.dict d) => rfl

theorem normalizeFovea_not_none (o : Option PyVal) :
    ImageAssetPointer.normalizeFovea o ≠ PyVal.none := by
  match o with
  | Option.none => exact fun h => PyVal.noConfusion h
  | some .none => exact fun h => PyVal.noConfusion h
  | some (.bool b) => exact fun h => PyVal.noConfusion h
  | some (.int n) => exact fun h => PyVal.noConfusion h
  | some (.str s) => exact fun h => PyVal.noConfusion h
  | some (.list xs) => exact fun h => PyVal.noConfusion h
  | some (.dict d) => exact fun h => PyVal.noConfusion h

/-- Claim C4, amended: for every successfully constructed ImageAssetPointer,
whatever the raw input, the stored metadata is never a raw mapping (a mapping
is JSON-encoded) and the stored fovea is never null (null becomes the empty
string), and this also holds for records produced while validating a content
parts element; raw values of other types (for example integers) pass through,
so the two fields are not always strings. -/
theorem image_metadata_fovea_invariant_amended :
    (∀ (kvs : List (String × PyVal)) (p : ImageAssetPointer),
        ImageAssetPointer.construct kvs = .ok p →
        p.metadata.isDict = false ∧ p.fovea ≠ PyVal.none) ∧
    (∀ (v : PyVal) (p : ImageAssetPointer),
        MessageContent.validate_part v = .ok (ContentPart.image p) →
        p.metadata.isDict = false ∧ p.fovea ≠ PyVal.none) := by
  have base : ∀ (kvs : List (String × PyVal)) (p : ImageAssetPointer),
      ImageAssetPointer.construct kvs = .ok p →
      p.metadata.isDict = false ∧ p.fovea ≠ PyVal.none := by
    intro kvs p h
    obtain ⟨hf, hm⟩ := imageConstruct_ok_fields h
    rw [hm, hf]
    exact ⟨normalizeMetadata_not_dict _, normalizeFovea_not_none _⟩
  refine ⟨base, ?_⟩
  intro v p h
  cases v with
  | dict kvs =>
      have hmap : Except.map ContentPart.image (ImageAssetPointer.construct kvs) =
          Except.ok (ContentPart.image p) := h
      cases hc : ImageAssetPointer.construct kvs with
      | ok q =>
          rw [hc] at hmap
          injection hmap with h2
          injection h2 with h3
          subst h3
          exact base kvs q hc
      | error es =>
          rw [hc] at hmap
          exact Except.noConfusion hmap
  | str s =>
      unfold MessageContent.validate_part at h
      injection h with h2
      exact ContentPart.noConfusion h2
  | none => exact Except.noConfusion h
  | bool b => exact Except.noConfusion h
  | int n => exact Except.noConfusion h
  | list xs => exact Except.noConfusion h

theorem image_metadata_nonstring_counterexample :
    ImageAssetPointer.construct rawImgOtherMeta = .ok imgOtherMeta ∧
    MessageContent.validate_part (.dict rawImgOtherMeta) = .ok (.image imgOtherMeta) ∧
    imgOtherMeta.metadata.isStr = false ∧
    imgOtherMeta.fovea.isStr = false :=
  ⟨rfl, rfl, rfl, rfl⟩

theorem image_metadata_fovea_invariant_amended_witness :
    imgOtherMeta.metadata.isDict = false ∧ imgOtherMeta.fovea ≠ PyVal.none :=
  image_metadata_fovea_invariant_amended.2 (.dict rawImgOtherMeta) imgOtherMeta rfl

/-- Claim C1, amended: the text accessor resolves the content by
first-match-wins priority, where a non-null parts list yields the string form
of its first element only when the list is non-empty and an out-of-range
indexing error when it is empty; a null parts with non-null text yields the
fenced code block of that text; a null parts and text with non-null result
yields the result verbatim; and all three null fails.  In particular text
print(1) alone yields its fenced form and result 42 alone is returned
exactly. -/
theorem text_priority_amended :
    (∀ (m : Message) (p : ContentPart) (ps : List ContentPart),
        m.content.parts = some (p :: ps) →
        Message.text m = .ok (ContentPart.strForm p)) ∧
    (∀ m : Message, m.content.parts = some [] →
        Message.text m = .error "list index out of range") ∧
    (∀ (m : Message) (t : String), m.content.parts = Option.none →
        m.content.text = some t → Message.text m = .ok (code_block t)) ∧
    (∀ (m : Message) (r : String), m.content.parts = Option.none →
        m.content.text = Option.none → m.content.result = some r →
        Message.text m = .ok r) ∧
    (∀ m : Message, m.content.parts = Option.none → m.content.text = Option.none →
        m.content.result = Option.none →
        Message.text m = .error ("No valid content found in message: " ++ m.id)) ∧
    (∀ m : Message, m.content.parts = Option.none → m.content.text = some "print(1)" →
        Message.text m = .ok (code_block "print(1)")) ∧
    (∀ m : Message, m.content.parts = Option.none → m.content.text = Option.none →
        m.content.result = some "42" → Message.text m = .ok "42") := by
  have htext : ∀ (m : Message) (t : String), m.content.parts = Option.none →
      m.content.text = some t → Message.text m = .ok (code_block t) := by
    intro m t hp ht
    unfold Message.text
    rw [hp, ht]
  have hres : ∀ (m : Message) (r : String), m.content.parts = Option.none →
      m.content.text = Option.none → m.content.result = some r →
      Message.text m = .ok r := by
    intro m r hp ht hr
    unfold Message.text
    rw [hp, ht, hr]
  refine ⟨?_, ?_, htext, hres, ?_, ?_, ?_⟩
  · intro m p ps h
    unfold Message.text
    rw [h]
  · intro m h
    unfold Message.text
    rw [h]
  · intro m hp ht hr
    unfold Message.text
    rw [hp, ht, hr]
  · intro m hp ht
    exact htext m "print(1)" hp ht
  · intro m hp ht hr
    exact hres m "42" hp ht hr

theorem text_first_element_counterexample :
    Message.construct rawEmptyParts = .ok msgEmptyParts ∧
    msgEmptyParts.content.parts = some [] ∧
    msgEmptyParts.content.text = some "hello" ∧
    Message.text msgEmptyParts = .error "list index out of range" :=
  ⟨rfl, rfl, rfl, rfl⟩

theorem text_priority_amended_witness :
    Message.text msgCodeText = .ok (code_block "print(1)") ∧
    Message.text msgResult42 = .ok "42" ∧
    Message.text msgHello = .ok (ContentPart.strForm (ContentPart.str "hello")) ∧
    Message.text msgEmptyParts = .error "list index out of range" ∧
    code_block_strip (code_block "print(1)") = "print(1)" :=
  ⟨text_priority_amended.2.2.2.2.2.1 msgCodeText rfl rfl,
   text_priority_amended.2.2.2.2.2.2 msgResult42 rfl rfl rfl,
   text_priority_amended.1 msgHello (ContentPart.str "hello") [] rfl,
   text_priority_amended.2.1 msgEmptyParts rfl,
   rfl⟩

/-- Claim C5: for every Message whose content has null parts, text and result,
the text accessor fails with an error that contains the message id, and it
never returns a string (in particular not the empty string). -/
theorem text_no_content_error_names_id :
    ∀ m : Message, m.content.parts = Option.none → m.content.text = Option.none →
      m.content.result = Option.none →
      Message.text m = .error ("No valid content found in message: " ++ m.id) ∧
      ∀ s, Message.text m ≠ .ok s := by
  intro m hp ht hr
  have he : Message.text m = .error ("No valid content found in message: " ++ m.id) := by
    unfold Message.text
    rw [hp, ht, hr]
  refine ⟨he, ?_⟩
  intro s hs
  rw [he] at hs
  exact Except.noConfusion hs

theorem text_no_content_error_names_id_witness :
    Message.text msgNoContent = .error ("No valid content found in message: " ++ "msg-31") ∧
    Message.text msgNoContent ≠ .ok "" :=
  ⟨(text_no_content_error_names_id msgNoContent rfl rfl rfl).1,
   (text_no_content_error_names_id msgNoContent rfl rfl rfl).2 ""⟩

/-- Claim C8: for every Message whose parts is non-null and non-empty, the
text accessor returns exactly the string form of the first element, the result
is independent of the remaining elements and of every other field of the
message, and for the single part hello it returns hello. -/
theorem text_first_part_only :
    (∀ (m : Message) (p : ContentPart) (ps : List ContentPart),
        m.content.parts = some (p :: ps) →
        Message.text m = .ok (ContentPart.strForm p)) ∧
    (∀ (m m2 : Message) (p : ContentPart) (ps ps2 : List ContentPart),
        m.content.parts = some (p :: ps) → m2.content.parts = some (p :: ps2) →
        Message.text m = Message.text m2) ∧
    (∀ m : Message, m.content.parts = some [ContentPart.str "hello"] →
        Message.text m = .ok "hello") := by
  have hfirst : ∀ (m : Message) (p : ContentPart) (ps : List ContentPart),
      m.content.parts = some (p :: ps) →
      Message.text m = .ok (ContentPart.strForm p) := by
    intro m p ps h
    unfold Message.text
    rw [h]
  refine ⟨hfirst, ?_, ?_⟩
  · intro m m2 p ps ps2 h h2
    rw [hfirst m p ps h, hfirst m2 p ps2 h2]
  · intro m h
    exact hfirst m (ContentPart.str "hello") [] h

theorem text_first_part_only_witness :
    Message.text msgHello = .ok "hello" ∧
    Message.text msgHelloTail = .ok "hello" ∧
    Message.text msgHello = Message.text msgHelloTail :=
  ⟨text_first_part_only.2.2 msgHello rfl,
   (text_first_part_only.2.1 msgHelloTail msgHello (ContentPart.str "hello")
      [ContentPart.str "ignored"] [] rfl rfl).symm.trans
     (text_first_part_only.2.2 msgHello rfl),
   (text_first_part_only.2.1 msgHello msgHelloTail (ContentPart.str "hello")
      [] [ContentPart.str "ignored"] rfl rfl)⟩

/-- Claim C10: for every Message whose parts equals the empty list, the text
accessor hits the out-of-range first-element indexing and fails with the index
error, never returning a value and never reaching the text, result or
no-valid-content branches, whatever those fields hold. -/
theorem empty_parts_index_error :
    ∀ m : Message, m.content.parts = some [] →
      Message.text m = .error "list index out of range" ∧
      ∀ s, Message.text m ≠ .ok s := by
  intro m h
  have he : Message.text m = .error "list index out of range" := by
    unfold Message.text
    rw [h]
  refine ⟨he, ?_⟩
  intro s hs
  rw [he] at hs
  exact Except.noConfusion hs

theorem empty_parts_index_error_witness :
    Message.text msgEmptyWithBoth = .error "list index out of range" ∧
    Message.text msgEmptyWithBoth ≠ .ok "t" :=
  ⟨(empty_parts_index_error msgEmptyWithBoth rfl).1,
   (empty_parts_index_error msgEmptyWithBoth rfl).2 "t"⟩

theorem update_configs_toplevel_counterexample :
    Message.update_configs DEFAULT_MESSAGE_CONFIGS [("user", ConfigValue.str "### You")] =
      [("author_headers", ConfigValue.headers
          [("user", "# Me"), ("assistant", "# ChatGPT"),
           ("system", "### System"), ("tool", "### Tool")]),
       ("user", ConfigValue.str "### You")] ∧
    msgHello.author.role = .user ∧
    Message.header (Message.update_configs DEFAULT_MESSAGE_CONFIGS
        [("user", ConfigValue.str "### You")]) msgHello = .ok "# Me" ∧
    Message.header (Message.update_configs DEFAULT_MESSAGE_CONFIGS
        [("user", ConfigValue.str "### You")]) msgHello ≠ .ok "### You" := by
  refine ⟨rfl, rfl, rfl, ?_⟩
  intro h
  injection h with h2
  exact absurd h2 (by decide)

/-- Claim C2, amended: after the configuration-update operation is called with
the mapping that binds the key author_headers to the role-to-header mapping
sending user to the three-hash You header, every Message with the user role -
whenever it was constructed, since header reads the shared configuration live
at call time rather than capturing it at construction - returns that header;
the update operation merges at the top level of the configs dictionary, so the
bare role-to-header mapping of the original claim would land beside, not
inside, the author_headers entry that header reads. -/
theorem update_configs_author_headers_amended :
    ∀ m : Message, m.author.role = .user →
      Message.header
        (Message.update_configs DEFAULT_MESSAGE_CONFIGS
          [("author_headers", ConfigValue.headers [("user", "### You")])]) m =
      .ok "### You" := by
  intro m h
  have hcfg : Message.update_configs DEFAULT_MESSAGE_CONFIGS
      [("author_headers", ConfigValue.headers [("user", "### You")])] =
      [("author_headers", ConfigValue.headers [("user", "### You")])] := rfl
  rw [hcfg]
  unfold Message.header
  rw [h]
  exact rfl

theorem update_configs_author_headers_amended_witness :
    Message.header (Message.update_configs DEFAULT_MESSAGE_CONFIGS
      [("author_headers", ConfigValue.headers [("user", "### You")])]) msgHello =
    .ok "### You" :=
  update_configs_author_headers_amended msgHello rfl

theorem collectParts_cons (x : PyVal) (rest : List PyVal) :
    MessageContent.collectParts (x :: rest) =
      match MessageContent.validate_part x, MessageContent.collectParts rest with
      | .ok p, .ok ps => .ok (p :: ps)
      | r, rs => .error (errsOf r ++ errsOf rs) := rfl

theorem collectParts_mem_error {xs : List PyVal} {v : PyVal} {es : List String} {e : String}
    (hv : v ∈ xs) (hval : MessageContent.validate_part v = .error es) (he : e ∈ es) :
    ∃ E, MessageContent.collectParts xs = .error E ∧ e ∈ E := by
  induction xs with
  | nil => cases hv
  | cons x rest ih =>
      rcases List.mem_cons.mp hv with hx | hx
      · subst hx
        refine ⟨errsOf (MessageContent.validate_part v) ++
                  errsOf (MessageContent.collectParts rest), ?_, ?_⟩
        · rw [collectParts_cons, hval]
        · rw [hval]
          exact List.mem_append_left _ he
      · obtain ⟨E, hE, heE⟩ := ih hx
        refine ⟨errsOf (MessageContent.validate_part x) ++
                  errsOf (MessageContent.collectParts rest), ?_, ?_⟩
        · rw [collectParts_cons, hE]
          cases hx2 : MessageContent.validate_part x <;> rfl
        · rw [hE]
          exact List.mem_append_right _ heE

theorem content_validate_eq (kvs : List (String × PyVal)) :
    MessageContent.validate (.dict kvs) =
      match requireStr kvs "content_type",
            MessageContent.validateParts (pyGet kvs "parts"),
            optionalStr kvs "text", optionalStr kvs "result" with
      | .ok ct, .ok ps, .ok t, .ok r =>
          .ok { content_type := ct, parts := some ps, text := t, result := r }
      | r1, r2, r3, r4 => .error (errsOf r1 ++ errsOf r2 ++ errsOf r3 ++ errsOf r4) := rfl

theorem content_validate_parts_error {kvs : List (String × PyVal)} {E : List String}
    {e : String}
    (h : MessageContent.validateParts (pyGet kvs "parts") = .error E) (he : e ∈ E) :
    ∃ E2, MessageContent.validate (.dict kvs) = .error E2 ∧ e ∈ E2 := by
  refine ⟨errsOf (requireStr kvs "content_type") ++
            errsOf (MessageContent.validateParts (pyGet kvs "parts")) ++
            errsOf (optionalStr kvs "text") ++ errsOf (optionalStr kvs "result"), ?_, ?_⟩
  · rw [content_validate_eq, h]
    cases h1 : requireStr kvs "content_type" <;>
      cases h3 : optionalStr kvs "text" <;>
        cases h4 : optionalStr kvs "result" <;> rfl
  · rw [h]
    simp [errsOf, List.mem_append, he]

theorem construct_eq (r : RawMessage) :
    Message.construct r =
      match MessageAuthor.validate r.author, MessageContent.validate r.content with
      | .ok a, .ok c =>
          .ok { id := r.id, author := a, create_time := r.create_time,
                update_time := r.update_time, content := c, status := r.status,
                end_turn := r.end_turn, weight := r.weight, metadata := r.metadata,
                recipient := r.recipient }
      | ra, rc => .error (errsOf ra ++ errsOf rc) := rfl

theorem construct_content_error {r : RawMessage} {E : List String} {e : String}
    (h : MessageContent.validate r.content = .error E) (he : e ∈ E) :
    ∃ E2, Message.construct r = .error E2 ∧ e ∈ E2 := by
  refine ⟨errsOf (MessageAuthor.validate r.author) ++
            errsOf (MessageContent.validate r.content), ?_, ?_⟩
  · rw [construct_eq, h]
    cases ha : MessageAuthor.validate r.author <;> rfl
  · rw [h]
    exact List.mem_append_right _ he

theorem validate_part_bad {v : PyVal} (hs : v.isStr = false) (hd : v.isDict = false) :
    MessageContent.validate_part v =
      .error ["Invalid type for parts: " ++ v.typeName] := by
  cases v with
  | str s => exact absurd hs (by simp [PyVal.isStr])
  | dict d => exact absurd hd (by simp [PyVal.isDict])
  | none => rfl
  | bool b => rfl
  | int n => rfl
  | list xs => rfl

/-- Claim C6: element-wise validation of content parts maps a mapping element
to a recursively validated ImageAssetPointer, keeps a string element
unchanged, and for any element that is neither a string nor a mapping the
whole Message construction fails with an error naming the offending element
type. -/
theorem validate_parts_element_rules :
    (∀ d : List (String × PyVal), MessageContent.validate_part (.dict d) =
        Except.map ContentPart.image (ImageAssetPointer.construct d)) ∧
    (∀ s : String, MessageContent.validate_part (.str s) = .ok (ContentPart.str s)) ∧
    (∀ (r : RawMessage) (kvs : List (String × PyVal)) (xs : List PyVal) (v : PyVal),
        r.content = .dict kvs → pyGet kvs "parts" = some (.list xs) → v ∈ xs →
        v.isStr = false → v.isDict = false →
        ∃ es, Message.construct r = .error es ∧
          ("Invalid type for parts: " ++ v.typeName) ∈ es) := by
  refine ⟨fun d => rfl, fun s => rfl, ?_⟩
  intro r kvs xs v hc hp hmem hs hd
  obtain ⟨E, hE, heE⟩ :=
    collectParts_mem_error hmem (validate_part_bad hs hd) (List.Mem.head _)
  have hvp : MessageContent.validateParts (pyGet kvs "parts") = .error E := by
    rw [hp]
    exact hE
  obtain ⟨E2, hE2, heE2⟩ := content_validate_parts_error hvp heE
  have hcv : MessageContent.validate r.content = .error E2 := by
    rw [hc]
    exact hE2
  exact construct_content_error hcv heE2

theorem validate_parts_element_rules_witness :
    MessageContent.validate_part (.str "ok") = .ok (ContentPart.str "ok") ∧
    MessageContent.validate_part (.dict rawImgDictMeta) =
      Except.map ContentPart.image (ImageAssetPointer.construct rawImgDictMeta) ∧
    ∃ es, Message.construct rawBadParts = .error es ∧
      ("Invalid type for parts: " ++ (PyVal.int 3).typeName) ∈ es :=
  ⟨validate_parts_element_rules.2.1 "ok",
   validate_parts_element_rules.1 rawImgDictMeta,
   validate_parts_element_rules.2.2 rawBadParts
     [("content_type", .str "text"), ("parts", .list [.str "ok", .int 3])]
     [.str "ok", .int 3] (.int 3) rfl rfl
     (List.Mem.tail _ (List.Mem.head _)) rfl rfl⟩

theorem role_validate_error {v : PyVal} (h1 : v ≠ .str "user")
    (h2 : v ≠ .str "assistant") (h3 : v ≠ .str "system") (h4 : v ≠ .str "tool") :
    AuthorRole.validate v =
      .error ["role: unexpected value; permitted: user, assistant, system, tool"] := by
  cases v with
  | str s =>
      have hs1 : ¬ s = "user" := fun hh => h1 (by rw [hh])
      have hs2 : ¬ s = "assistant" := fun hh => h2 (by rw [hh])
      have hs3 : ¬ s = "system" := fun hh => h3 (by rw [hh])
      have hs4 : ¬ s = "tool" := fun hh => h4 (by rw [hh])
      simp only [AuthorRole.validate]
      rw [if_neg hs1, if_neg hs2, if_neg hs3, if_neg hs4]
  | none => rfl
  | bool b => rfl
  | int n => rfl
  | list xs => rfl
  | dict d => rfl

theorem author_validate_eq (kvs : List (String × PyVal)) :
    MessageAuthor.validate (.dict kvs) =
      match MessageAuthor.validateRole kvs, optionalStr kvs "name",
            requireDict kvs "metadata" with
      | .ok rr, .ok n, .ok md => .ok { role := rr, name := n, metadata := md }
      | r1, r2, r3 => .error (errsOf r1 ++ errsOf r2 ++ errsOf r3) := rfl

theorem author_role_error {kvs : List (String × PyVal)} {E : List String}
    (h : MessageAuthor.validateRole kvs = .error E) :
    ∃ E2, MessageAuthor.validate (.dict kvs) = .error E2 := by
  refine ⟨errsOf (MessageAuthor.validateRole kvs) ++ errsOf (optionalStr kvs "name") ++
            errsOf (requireDict kvs "metadata"), ?_⟩
  rw [author_validate_eq, h]

theorem construct_author_error {r : RawMessage} {E : List String}
    (h : MessageAuthor.validate r.author = .error E) :
    ∃ es, Message.construct r = .error es := by
  refine ⟨errsOf (MessageAuthor.validate r.author) ++
            errsOf (MessageContent.validate r.content), ?_⟩
  rw [construct_eq, h]

/-- Claim C7: for every raw author mapping whose role value is not one of the
four strings user, assistant, system and tool, Message construction fails;
and each of those four strings is accepted by the role check. -/
theorem author_role_closed_set :
    (∀ (r : RawMessage) (kvs : List (String × PyVal)) (v : PyVal),
        r.author = .dict kvs → pyGet kvs "role" = some v →
        v ≠ .str "user" → v ≠ .str "assistant" → v ≠ .str "system" → v ≠ .str "tool" →
        ∃ es, Message.construct r = .error es) ∧
    (∀ s : String, s = "user" ∨ s = "assistant" ∨ s = "system" ∨ s = "tool" →
        ∃ a, AuthorRole.validate (.str s) = .ok a ∧ AuthorRole.key a = s) := by
  constructor
  · intro r kvs v ha hrole h1 h2 h3 h4
    have hvr : MessageAuthor.validateRole kvs =
        .error ["role: unexpected value; permitted: user, assistant, system, tool"] := by
      unfold MessageAuthor.validateRole
      rw [hrole]
      exact role_validate_error h1 h2 h3 h4
    obtain ⟨E2, hE2⟩ := author_role_error hvr
    have hav : MessageAuthor.validate r.author = .error E2 := by
      rw [ha]
      exact hE2
    exact construct_author_error hav
  · intro s hs
    rcases hs with h | h | h | h
    · subst h
      exact ⟨.user, rfl, rfl⟩
    · subst h
      exact ⟨.assistant, rfl, rfl⟩
    · subst h
      exact ⟨.system, rfl, rfl⟩
    · subst h
      exact ⟨.tool, rfl, rfl⟩

theorem author_role_closed_set_witness :
    (∃ es, Message.construct rawBadRole = .error es) ∧
    (∃ a, AuthorRole.validate (.str "user") = .ok a ∧ AuthorRole.key a = "user") :=
  ⟨author_role_closed_set.1 rawBadRole
     [("role", .str "admin"), ("metadata", .dict [])] (.str "admin") rfl rfl
     (by simp) (by simp) (by simp) (by simp),
   author_role_closed_set.2 "user" (Or.inl rfl)⟩

theorem content_validate_ok_parts {v : PyVal} {c : MessageContent}
    (h : MessageContent.validate v = .ok c) : ∃ ps, c.parts = some ps := by
  cases v with
  | dict kvs =>
      rw [content_validate_eq] at h
      split at h
      · injection h with h5
        rw [← h5]
        exact ⟨_, rfl⟩
      all_goals exact Except.noConfusion h
  | none => exact Except.noConfusion h
  | bool b => exact Except.noConfusion h
  | int n => exact Except.noConfusion h
  | str s => exact Except.noConfusion h
  | list xs => exact Except.noConfusion h

/-- Claim C9: a raw content mapping with no parts key validates (other fields
permitting) to a record whose parts is the empty list rather than null, so
the text accessor still takes the parts branch on such messages: construction
never yields a null parts. -/
theorem parts_absent_defaults_empty :
    (∀ ct : String,
        MessageContent.validate (.dict [("content_type", .str ct)]) =
          .ok { content_type := ct, parts := some [], text := Option.none,
                result := Option.none }) ∧
    (∀ (kvs : List (String × PyVal)) (c : MessageContent),
        pyGet kvs "parts" = Option.none →
        MessageContent.validate (.dict kvs) = .ok c → c.parts = some []) ∧
    (∀ (r : RawMessage) (m : Message), Message.construct r = .ok m →
        m.content.parts ≠ Option.none) := by
  refine ⟨fun ct => rfl, ?_, ?_⟩
  · intro kvs c hp h
    rw [content_validate_eq, hp] at h
    rw [show MessageContent.validateParts Option.none = .ok [] from rfl] at h
    split at h
    · rename_i ct ps t rr hct hps2 ht hr
      injection h with h5
      injection hps2 with hps3
      rw [← h5, ← hps3]
    all_goals exact Except.noConfusion h
  · intro r m h
    rw [construct_eq] at h
    split at h
    next a c ha hc =>
        injection h with h5
        obtain ⟨ps, hps⟩ := content_validate_ok_parts hc
        rw [← h5]
        simp [hps]
    next => exact Except.noConfusion h

theorem parts_absent_defaults_empty_witness :
    MessageContent.validate (.dict [("content_type", .str "text")]) =
      .ok { content_type := "text", parts := some [], text := Option.none,
            result := Option.none } ∧
    msgEmptyParts.content.parts = some [] ∧
    msgEmptyParts.content.parts ≠ Option.none :=
  ⟨parts_absent_defaults_empty.1 "text",
   parts_absent_defaults_empty.2.1
     [("content_type", .str "text"), ("text", .str "hello")] msgEmptyParts.content rfl rfl,
   parts_absent_defaults_empty.2.2 rawEmptyParts msgEmptyParts rfl⟩
